import Mathlib

/-!
Verification of the StarRush simulation core against its specification.

The definitions below are a shallow embedding of the game's simulation
layer: the Sun capture state machine (`Sun.takeDamage`), the attack-cost
economy (`InputManager.calculateAttackCost`, `getSunAttackCost`,
`registerSunAttack`, `updateSunCooldown`), planet ship accounting
(`Planet.removeShips`), combat resolution on a hit planet
(`CombatSystem.resolveAttackHit`), the generic object pool
(`ObjectPool.acquire` / `ObjectPool.release`), the particle pool
(`ParticlePool.acquire`), the per-tick projectile lifecycle pipeline
(`aiListTick`), the win-condition check (`GameManager.checkWinCondition`)
and the mode-dependent majority threshold (`getMajorityThreshold`).

JavaScript numbers are modelled as `ℚ` (the code only performs exact
arithmetic: additions, subtractions, divisions by constants, `Math.floor`,
`Math.max`/`Math.min`).  Pixel distances, which the code obtains via
`Math.sqrt`, enter the cost model as an explicit nonnegative rational
parameter.  Integer results of `Math.floor` are modelled as `ℤ`.
-/

/-- Owner tag used throughout the store and the entities
(`'player' | 'ai' | 'neutral'`). -/
inductive Owner : Type
  | player
  | ai
  | neutral
deriving DecidableEq, Repr

/-- Planet type tag (`'generator' | 'fortress' | 'launcher' | 'standard'`). -/
inductive PlanetType : Type
  | generator
  | fortress
  | launcher
  | standard
deriving DecidableEq, Repr

/- Constants from GameConfig.ts (GAME_CONFIG). -/

def SUN_MAX_HP : Nat := 3

def ATTACK_COST_BASE : Int := 5

def ATTACK_COST_DISTANCE_MULTIPLIER : ℚ := 1 / 100

def ATTACK_COST_MIN : Int := 5

def ATTACK_COST_MAX : Int := 15

def SUN_ATTACK_COOLDOWN : ℚ := 180

def SUN_OVERCHARGE_MULTIPLIER : ℚ := 2

def SUN_OVERCHARGE_DECAY : ℚ := 1 / 2

/-- Per-type attack cost modifier (`GAME_CONFIG.PLANET_TYPES[..].attackCostModifier`). -/
def attackCostModifier : PlanetType → ℚ
  | .generator => 2
  | .fortress => -1
  | .launcher => 0
  | .standard => 0

/-! ## Sun capture state machine (Sun.ts / gameStore damageSun + captureSun) -/

/-- Mutable state of the Sun that `takeDamage` reads and writes:
`hp` and `owner` (null until captured). -/
structure SunState : Type where
  hp : Nat
  owner : Option Owner
deriving DecidableEq, Repr

/-- Translation of `Sun.takeDamage(attacker)`: if `hp > 0 && owner === null`,
decrement hp; when the decrement reaches 0, set the owner to the attacker and
return true (captured); otherwise return false.  (The store mirror
`damageSun`/`captureSun` performs the same transition on `sunHP`/`sunOwner`.) -/
def Sun.takeDamage (s : SunState) (attacker : Owner) : SunState × Bool :=
  if 0 < s.hp ∧ s.owner = none then
    let hp2 := s.hp - 1
    if hp2 = 0 then ({ hp := 0, owner := some attacker }, true)
    else ({ hp := hp2, owner := none }, false)
  else (s, false)

/-- Initial Sun state of a match (`hp = GAME_CONFIG.SUN_MAX_HP`, `owner = null`). -/
def sunInit : SunState := { hp := SUN_MAX_HP, owner := none }

/-- State of the Sun after a sequence of `takeDamage` calls. -/
def applyAttacks (l : List Owner) (s : SunState) : SunState :=
  l.foldl (fun st a => (Sun.takeDamage st a).1) s

/-- Invariant maintained by `takeDamage` from `sunInit`. -/
def SunInv (s : SunState) : Prop :=
  s.hp ≤ SUN_MAX_HP ∧ (s.owner ≠ none → s.hp = 0)

lemma sunInv_init : SunInv sunInit := by
  constructor
  · exact le_refl _
  · intro h; exact absurd rfl h

lemma sunInv_step (s : SunState) (a : Owner) (h : SunInv s) :
    SunInv (Sun.takeDamage s a).1 := by
  unfold Sun.takeDamage
  by_cases hc : 0 < s.hp ∧ s.owner = none
  · simp only [hc, if_true]
    by_cases hz : s.hp - 1 = 0
    · simp only [hz, if_true]
      exact ⟨Nat.zero_le _, fun _ => rfl⟩
    · simp only [hz, if_false]
      refine ⟨le_trans (Nat.sub_le _ _) h.1, ?_⟩
      intro hcontra; exact absurd rfl hcontra
  · simp only [hc, if_false]
    exact h

lemma sunInv_applyAttacks (l : List Owner) (s : SunState) (h : SunInv s) :
    SunInv (applyAttacks l s) := by
  induction l generalizing s with
  | nil => exact h
  | cons a rest ih =>
    exact ih _ (sunInv_step s a h)

lemma takeDamage_hp_le (s : SunState) (a : Owner) :
    ((Sun.takeDamage s a).1).hp ≤ s.hp := by
  unfold Sun.takeDamage
  by_cases hc : 0 < s.hp ∧ s.owner = none
  · simp only [hc, if_true]
    by_cases hz : s.hp - 1 = 0
    · simp only [hz, if_true]; exact Nat.zero_le _
    · simp only [hz, if_false]; exact Nat.sub_le _ _
  · simp only [hc, if_false]; exact le_refl _

/-- C1: the Sun state machine is monotone and terminal.  For every sequence
of `takeDamage` calls starting from the initial state: HP stays in
`[0, SUN_MAX_HP]` and never increases at any further call; while HP is
positive the owner is null; the call made at HP 1 (the one that brings HP
to 0) sets the owner to the attacking faction; and once the owner is
non-null every further `takeDamage` call leaves the state unchanged. -/
theorem sun_state_machine_monotone_terminal (l : List Owner) :
    (applyAttacks l sunInit).hp ≤ SUN_MAX_HP
    ∧ (∀ a, ((Sun.takeDamage (applyAttacks l sunInit) a).1).hp ≤ (applyAttacks l sunInit).hp)
    ∧ (0 < (applyAttacks l sunInit).hp → (applyAttacks l sunInit).owner = none)
    ∧ ((applyAttacks l sunInit).hp = 1 →
        ∀ a, Sun.takeDamage (applyAttacks l sunInit) a = ({ hp := 0, owner := some a }, true))
    ∧ (∀ o a, (applyAttacks l sunInit).owner = some o →
        Sun.takeDamage (applyAttacks l sunInit) a = (applyAttacks l sunInit, false)) := by
  have hinv : SunInv (applyAttacks l sunInit) := sunInv_applyAttacks l sunInit sunInv_init
  set r := applyAttacks l sunInit with hr
  refine ⟨hinv.1, fun a => takeDamage_hp_le r a, ?_, ?_, ?_⟩
  · intro hpos
    by_contra hne
    have : r.hp = 0 := hinv.2 hne
    omega
  · intro h1 a
    have howner : r.owner = none := by
      by_contra hne
      have : r.hp = 0 := hinv.2 hne
      omega
    simp [Sun.takeDamage, h1, howner]
  · intro o a hown
    unfold Sun.takeDamage
    have hc : ¬(0 < r.hp ∧ r.owner = none) := by
      rintro ⟨-, hnone⟩
      rw [hown] at hnone
      exact Option.noConfusion hnone
    simp only [hc, if_false]

/-- Witness for C1: after the attack sequence player, ai the Sun has HP 1 and
no owner; a third attack captures it for the attacker. -/
theorem sun_state_machine_monotone_terminal_witness :
    (applyAttacks [Owner.player, Owner.ai] sunInit).hp = 1
    ∧ Sun.takeDamage (applyAttacks [Owner.player, Owner.ai] sunInit) Owner.player
        = ({ hp := 0, owner := some Owner.player }, true) :=
  ⟨by decide,
    (sun_state_machine_monotone_terminal [Owner.player, Owner.ai]).2.2.2.1 (by decide) Owner.player⟩

/-! ## Attack cost model (InputManager.calculateAttackCost, gameStore.getSunAttackCost)

The code computes `distance = Math.sqrt(dx*dx + dy*dy)` from the source and
target positions and then uses it only through the formula below; the
distance therefore enters the embedding as an explicit rational parameter
(the set of values the code can produce is a subset of the nonnegative
reals). -/

/-- Translation of `InputManager.calculateAttackCost` (identical code in
`AISystem.calculateAttackCost`): floor the total cost, then clamp it to
`[ATTACK_COST_MIN, ATTACK_COST_MAX]` via `Math.max(MIN, Math.min(MAX, floor))`. -/
def InputManager.calculateAttackCost (distance : ℚ) (sourceType : PlanetType) : Int :=
  max ATTACK_COST_MIN (min ATTACK_COST_MAX
    ⌊(ATTACK_COST_BASE : ℚ) + distance * ATTACK_COST_DISTANCE_MULTIPLIER
      + attackCostModifier sourceType⌋)

/-- Translation of `gameStore.getSunAttackCost`:
`ATTACK_COST_BASE + Math.floor(sunOvercharge * SUN_OVERCHARGE_MULTIPLIER)`,
with no clamping. -/
def getSunAttackCost (overcharge : ℚ) : Int :=
  ATTACK_COST_BASE + ⌊overcharge * SUN_OVERCHARGE_MULTIPLIER⌋

/-- The specification's formula for the planet attack cost:
`clamp(base + distance*mult + typeModifier, min, max)` taken as an integer.
This is the spec-side definition used for the refinement comparison in C2. -/
def specPlanetAttackCost (distance : ℚ) (sourceType : PlanetType) : Int :=
  ⌊max ((ATTACK_COST_MIN : ℚ)) (min ((ATTACK_COST_MAX : ℚ))
    ((ATTACK_COST_BASE : ℚ) + distance * ATTACK_COST_DISTANCE_MULTIPLIER
      + attackCostModifier sourceType))⌋

/-- Flooring commutes with clamping against integer bounds. -/
lemma int_floor_clamp (q : ℚ) (a b : ℤ) :
    max a (min b ⌊q⌋) = ⌊max (a : ℚ) (min (b : ℚ) q)⌋ := by
  rcases le_total q (b : ℚ) with h | h
  · rw [min_eq_right h]
    have hb : ⌊q⌋ ≤ b := by
      have := Int.floor_le_floor h
      rwa [Int.floor_intCast] at this
    rw [min_eq_right hb]
    rcases le_total q (a : ℚ) with h2 | h2
    · have ha : ⌊q⌋ ≤ a := by
        have := Int.floor_le_floor h2
        rwa [Int.floor_intCast] at this
      rw [max_eq_left ha, max_eq_left h2, Int.floor_intCast]
    · have ha : a ≤ ⌊q⌋ := Int.le_floor.mpr h2
      rw [max_eq_right ha, max_eq_right h2]
  · have hb : b ≤ ⌊q⌋ := Int.le_floor.mpr h
    rw [min_eq_left h, min_eq_left hb]
    have hc : ((max a b : ℤ) : ℚ) = max (a : ℚ) (b : ℚ) := by push_cast; rfl
    rw [← hc, Int.floor_intCast]

/-- C2: the planet attack cost computed by the code equals the spec's
`clamp(base + distance*mult + typeModifier, min, max)` as an integer, with
type modifiers generator +2, fortress -1, launcher 0, standard 0; the Sun
attack cost is `base + floor(overcharge * multiplier)` with no upper clamp,
and for overcharge 6 it exceeds `ATTACK_COST_MAX`. -/
theorem attack_cost_clamp_and_sun_unclamped :
    (∀ (distance : ℚ) (t : PlanetType),
        InputManager.calculateAttackCost distance t = specPlanetAttackCost distance t)
    ∧ attackCostModifier .generator = 2
    ∧ attackCostModifier .fortress = -1
    ∧ attackCostModifier .launcher = 0
    ∧ attackCostModifier .standard = 0
    ∧ (∀ oc : ℚ, getSunAttackCost oc = ATTACK_COST_BASE + ⌊oc * SUN_OVERCHARGE_MULTIPLIER⌋)
    ∧ (∃ oc : ℚ, 0 ≤ oc ∧ ATTACK_COST_MAX < getSunAttackCost oc) := by
  refine ⟨?_, rfl, rfl, rfl, rfl, fun _ => rfl, ?_⟩
  · intro distance t
    unfold InputManager.calculateAttackCost specPlanetAttackCost
    exact int_floor_clamp _ _ _
  · refine ⟨6, by norm_num, ?_⟩
    have h : (6 : ℚ) * SUN_OVERCHARGE_MULTIPLIER = ((12 : ℤ) : ℚ) := by
      norm_num [SUN_OVERCHARGE_MULTIPLIER]
    unfold getSunAttackCost
    rw [h, Int.floor_intCast]
    norm_num [ATTACK_COST_BASE, ATTACK_COST_MAX]

/-! ## Ship accounting (Planet.removeShips, Planet.addShips) -/

/-- Translation of `Planet.removeShips(amount)`: deduct only when
`ships >= amount`, returning whether the deduction happened. -/
def Planet.removeShips (ships : ℚ) (amount : ℚ) : ℚ × Bool :=
  if amount ≤ ships then (ships - amount, true) else (ships, false)

/-- Ship count after a sequence of `removeShips` requests (the deduction
path shared by `InputManager.attack`, `InputManager.defendPlanet`,
`AISystem.attackPlanet`, `AISystem.attackSun` and `AISystem.defendPlanet`,
each of which additionally pre-checks `ships >= cost`). -/
def applyRemovals (l : List ℚ) (ships : ℚ) : ℚ :=
  l.foldl (fun s a => (Planet.removeShips s a).1) ships

/-- C4: a deduction request larger than the current ship count fails and
leaves the count unchanged, and consequently any sequence of attack/defend
deduction requests keeps a ship count that started nonnegative
nonnegative. -/
theorem remove_ships_atomic_nonneg :
    (∀ ships amount : ℚ, ships < amount → Planet.removeShips ships amount = (ships, false))
    ∧ (∀ (s0 : ℚ) (l : List ℚ), 0 ≤ s0 → 0 ≤ applyRemovals l s0) := by
  constructor
  · intro ships amount h
    unfold Planet.removeShips
    rw [if_neg (not_le.mpr h)]
  · intro s0 l h
    induction l generalizing s0 with
    | nil => exact h
    | cons a rest ih =>
      refine ih _ ?_
      show 0 ≤ (Planet.removeShips s0 a).1
      unfold Planet.removeShips
      by_cases hc : a ≤ s0
      · rw [if_pos hc]
        by_cases ha : 0 ≤ a
        · simpa using sub_nonneg.mpr hc
        · have : s0 ≤ s0 - a := by linarith
          exact le_trans h this
      · rw [if_neg hc]
        exact h

/-- Witness for C4: a planet with 4 ships rejects a request of 5 unchanged,
and the sequence of requests 5, 3, 12 starting from 10 ships stays
nonnegative. -/
theorem remove_ships_atomic_nonneg_witness :
    Planet.removeShips 4 5 = (4, false) ∧ 0 ≤ applyRemovals [5, 3, 12] 10 :=
  ⟨remove_ships_atomic_nonneg.1 4 5 (by norm_num),
    remove_ships_atomic_nonneg.2 10 [5, 3, 12] (by norm_num)⟩

/-! ## Combat resolution on a hit planet (CombatSystem.resolveAttack) -/

/-- State of a `DefenseTriangle`: its `isActive` flag (`consume()` sets it
to false and hides the graphics). -/
structure DefenseTriangleState : Type where
  isActive : Bool
deriving DecidableEq, Repr

/-- Translation of `DefenseTriangle.consume()`. -/
def DefenseTriangle.consume (_d : DefenseTriangleState) : DefenseTriangleState :=
  { isActive := false }

/-- The parts of a planet's state that `CombatSystem.resolveAttack` reads
and writes: owner, ship count, and the defense slot (`none` models
`defenseTriangle === null`). -/
structure PlanetCombat : Type where
  owner : Owner
  ships : ℚ
  defense : Option DefenseTriangleState
deriving DecidableEq, Repr

/-- Translation of `Planet.hasDefense()`:
`defenseTriangle !== null && defenseTriangle.isActive`. -/
def Planet.hasDefense (p : PlanetCombat) : Bool :=
  match p.defense with
  | some d => d.isActive
  | none => false

/-- Translation of `Planet.consumeDefense()`: consume the triangle (it
becomes inactive) and clear the slot; returns the detached triangle as the
second component so its final state is observable. -/
def Planet.consumeDefense (p : PlanetCombat) : PlanetCombat × Option DefenseTriangleState :=
  match p.defense with
  | some d => ({ p with defense := none }, some (DefenseTriangle.consume d))
  | none => (p, none)

/-- Result of resolving one reached projectile against the planet it hit:
the planet's new state, the detached defense triangle if one was consumed,
the (player) conquest counter, and whether the planet-lost callback fired. -/
structure ResolveResult : Type where
  planet : PlanetCombat
  consumedDefense : Option DefenseTriangleState
  conquests : Nat
  lostNotification : Bool
deriving DecidableEq, Repr

/-- Translation of the body of `CombatSystem.resolveAttack` once the nearest
planet is within the hit threshold: same-owner hits are no-ops; an active
defense on a non-neutral planet is consumed and blocks the attack;
otherwise ownership transfers, the conquest counter increments for player
attacks, and the planet-lost callback fires when the player owned the
target.  (Particle and animation calls are rendering and are omitted.) -/
def CombatSystem.resolveAttackHit (p : PlanetCombat) (attacker : Owner) (conquests : Nat) :
    ResolveResult :=
  if p.owner = attacker then
    { planet := p, consumedDefense := none, conquests := conquests, lostNotification := false }
  else if Planet.hasDefense p ∧ p.owner ≠ Owner.neutral then
    let r := Planet.consumeDefense p
    { planet := r.1, consumedDefense := r.2, conquests := conquests, lostNotification := false }
  else
    { planet := { p with owner := attacker },
      consumedDefense := none,
      conquests := if attacker = Owner.player then conquests + 1 else conquests,
      lostNotification := p.owner = Owner.player }

/-- C5: a reached projectile resolving against a planet with an active
defense whose owner is neither neutral nor the attacker consumes the
defense (it becomes inactive and the slot is cleared) and changes nothing
else: owner and ships keep their prior values, the conquest counter is
unchanged, and no planet-lost notification fires. -/
theorem defense_blocks_attack_consumes_only
    (p : PlanetCombat) (attacker : Owner) (conquests : Nat)
    (hdef : p.defense = some { isActive := true })
    (hneutral : p.owner ≠ Owner.neutral)
    (howner : p.owner ≠ attacker) :
    CombatSystem.resolveAttackHit p attacker conquests
      = { planet := { p with defense := none },
          consumedDefense := some { isActive := false },
          conquests := conquests,
          lostNotification := false } := by
  unfold CombatSystem.resolveAttackHit
  rw [if_neg howner]
  have hhas : Planet.hasDefense p = true := by
    unfold Planet.hasDefense
    rw [hdef]
  rw [if_pos ⟨hhas, hneutral⟩]
  unfold Planet.consumeDefense
  rw [hdef]
  rfl

/-- Witness for C5: a defended AI planet with 7 ships attacked by a player
projectile loses only its defense. -/
theorem defense_blocks_attack_consumes_only_witness :
    CombatSystem.resolveAttackHit
        { owner := Owner.ai, ships := 7, defense := some { isActive := true } }
        Owner.player 2
      = { planet := { owner := Owner.ai, ships := 7, defense := none },
          consumedDefense := some { isActive := false },
          conquests := 2,
          lostNotification := false } :=
  defense_blocks_attack_consumes_only
    { owner := Owner.ai, ships := 7, defense := some { isActive := true } }
    Owner.player 2 rfl (by decide) (by decide)

/-! ## Object pools (ObjectPool.ts, ParticlePool.ts)

`ObjectPool` keeps two parallel arrays `pool` and `active`; the constructor
creates them with equal length and every operation preserves that, so the
theorems may assume `pool.length = active.length`.  Object identity
(JavaScript reference equality, used by `indexOf`) is modelled by an `id`
field that reset never changes. -/

/-- A pooled object: its identity and its mutable payload. -/
structure PoolItem (α : Type) : Type where
  id : Nat
  payload : α
deriving DecidableEq, Repr

/-- State of a generic `ObjectPool`. -/
structure ObjectPool (α : Type) : Type where
  pool : List (PoolItem α)
  active : List Bool
deriving DecidableEq, Repr

/-- The scan `for (i = 0; i < length; i++) if (!active[i])` of
`ObjectPool.acquire` and `ParticlePool.acquire`: index of the first
inactive slot, starting the count at `k`. -/
def findFirstInactive : List Bool → Nat → Option Nat
  | [], _ => none
  | b :: rest, i => if b then findFirstInactive rest (i + 1) else some i

/-- The scan of `Array.prototype.indexOf` used by `release`: index of the
first item with the given identity, starting the count at `k`. -/
def indexOfId {α : Type} (objId : Nat) : List (PoolItem α) → Nat → Option Nat
  | [], _ => none
  | t :: rest, i => if t.id == objId then some i else indexOfId objId rest (i + 1)

/-- Translation of `ObjectPool.acquire()`: return the first inactive slot
marked active; when none is inactive, grow the pool by one item built by
the constructor-supplied factory and return it active. -/
def ObjectPool.acquire {α : Type} (factory : Unit → PoolItem α) (s : ObjectPool α) :
    ObjectPool α × Option (PoolItem α) :=
  match findFirstInactive s.active 0 with
  | some i => ({ s with active := s.active.set i true }, s.pool.get? i)
  | none =>
    let newObj := factory ()
    ({ pool := s.pool ++ [newObj], active := s.active ++ [true] }, some newObj)

/-- Translation of `ObjectPool.release(obj)`: find the item by identity;
no-op when unknown or already inactive; otherwise reset its payload and
mark the slot inactive. -/
def ObjectPool.release {α : Type} (reset : α → α) (s : ObjectPool α) (objId : Nat) :
    ObjectPool α :=
  match indexOfId objId s.pool 0 with
  | none => s
  | some idx =>
    if s.active.getD idx false = true then
      match s.pool.get? idx with
      | some t =>
          { pool := s.pool.set idx { t with payload := reset t.payload },
            active := s.active.set idx false }
      | none => s
    else s

/-- Translation of `ObjectPool.getActiveCount()`. -/
def ObjectPool.getActiveCount {α : Type} (s : ObjectPool α) : Nat :=
  s.active.count true

/-- Visual state of a pooled particle that `ParticlePool` resets. -/
structure ParticleState : Type where
  visible : Bool
  alpha : ℚ
deriving DecidableEq, Repr

/-- State of the `ParticlePool`. -/
structure ParticlePool : Type where
  pool : List ParticleState
  active : List Bool
deriving DecidableEq, Repr

/-- Translation of `ParticlePool.acquire()`: mark the first inactive slot
active, make the particle visible with alpha 1 and return it; when every
slot is active, return null (`// Pool exhausted - return null`). -/
def ParticlePool.acquire (s : ParticlePool) : ParticlePool × Option ParticleState :=
  match findFirstInactive s.active 0 with
  | some i =>
    let q : ParticleState := { visible := true, alpha := 1 }
    ({ pool := s.pool.set i q, active := s.active.set i true }, some q)
  | none => (s, none)

lemma findFirstInactive_none (l : List Bool) (k : Nat) (h : ∀ b ∈ l, b = true) :
    findFirstInactive l k = none := by
  induction l generalizing k with
  | nil => rfl
  | cons b rest ih =>
    have hb : b = true := h b (List.mem_cons_self b rest)
    simp only [findFirstInactive, hb, if_true]
    exact ih (k + 1) (fun x hx => h x (List.mem_cons_of_mem b hx))

lemma findFirstInactive_spec : ∀ (l : List Bool) (k i : Nat),
    i < l.length → l.getD i true = false → (∀ j, j < i → l.getD j true = true) →
    findFirstInactive l k = some (k + i)
  | [], _, i, hi, _, _ => absurd hi (by simp)
  | b :: _, k, 0, _, hfalse, _ => by
      have hb : b = false := by simpa using hfalse
      simp [findFirstInactive, hb]
  | b :: rest, k, m + 1, hi, hfalse, hmin => by
      have hb : b = true := by simpa using hmin 0 (Nat.succ_pos m)
      have hrec : findFirstInactive rest (k + 1) = some ((k + 1) + m) :=
        findFirstInactive_spec rest (k + 1) m (by simpa using Nat.lt_of_succ_lt_succ hi)
          (by simpa using hfalse)
          (fun j hj => by simpa using hmin (j + 1) (Nat.succ_lt_succ hj))
      have harith : (k + 1) + m = k + (m + 1) := by omega
      simp only [findFirstInactive, hb, if_true, hrec, harith]

lemma findFirstInactive_le_lt (l : List Bool) (k i : Nat)
    (h : findFirstInactive l k = some i) : k ≤ i ∧ i - k < l.length := by
  induction l generalizing k with
  | nil => exact absurd h (by simp [findFirstInactive])
  | cons b rest ih =>
    by_cases hb : b = true
    · simp only [findFirstInactive, hb, if_true] at h
      have := ih (k + 1) h
      constructor
      · omega
      · simp only [List.length_cons]; omega
    · have hb2 : b = false := by simpa using hb
      simp only [findFirstInactive, hb2, if_false] at h
      obtain rfl : k = i := Option.some_injective _ h
      simp only [List.length_cons]
      omega

/-- Counterexample for C6 as stated: the claim quantifies over "every pool
state" and both pool classes, but `ParticlePool.acquire` on a pool whose
single slot is active returns the exhausted signal (null) instead of
growing. -/
theorem particle_pool_acquire_exhausted_null :
    (ParticlePool.acquire
        { pool := [{ visible := false, alpha := 0 }], active := [true] }).2 = none := rfl

/-- C6 (amended): `ObjectPool.acquire` never fails — it returns the first
inactive slot marked active when one exists and otherwise grows the pool
by exactly one factory-built item returned active — while
`ParticlePool.acquire` returns null when every slot is active. -/
theorem pool_acquire_never_exhausted {α : Type}
    (f : Unit → PoolItem α) (s : ObjectPool α)
    (hlen : s.pool.length = s.active.length) :
    ((ObjectPool.acquire f s).2.isSome = true)
    ∧ (∀ i, i < s.active.length → s.active.getD i true = false →
        (∀ j, j < i → s.active.getD j true = true) →
          (ObjectPool.acquire f s).1.pool = s.pool
          ∧ (ObjectPool.acquire f s).1.active = s.active.set i true
          ∧ (ObjectPool.acquire f s).2 = s.pool.get? i)
    ∧ ((∀ b ∈ s.active, b = true) →
        (ObjectPool.acquire f s).1.pool = s.pool ++ [f ()]
        ∧ (ObjectPool.acquire f s).1.active = s.active ++ [true]
        ∧ (ObjectPool.acquire f s).2 = some (f ()))
    ∧ (∀ q : ParticlePool, (∀ b ∈ q.active, b = true) →
        ParticlePool.acquire q = (q, none)) := by
  refine ⟨?_, ?_, ?_, ?_⟩
  · rcases hfi : findFirstInactive s.active 0 with _ | i
    · unfold ObjectPool.acquire
      rw [hfi]
      rfl
    · have hlt : i < s.pool.length := by
        have := findFirstInactive_le_lt s.active 0 i hfi
        omega
      unfold ObjectPool.acquire
      rw [hfi]
      show (s.pool.get? i).isSome = true
      rw [List.get?_eq_get hlt]
      rfl
  · intro i hi hfalse hmin
    have hfi : findFirstInactive s.active 0 = some i := by
      have := findFirstInactive_spec s.active 0 i hi hfalse hmin
      simpa using this
    unfold ObjectPool.acquire
    rw [hfi]
    exact ⟨rfl, rfl, rfl⟩
  · intro hall
    have hfi : findFirstInactive s.active 0 = none := findFirstInactive_none s.active 0 hall
    unfold ObjectPool.acquire
    rw [hfi]
    exact ⟨rfl, rfl, rfl⟩
  · intro q hall
    have hfi : findFirstInactive q.active 0 = none := findFirstInactive_none q.active 0 hall
    unfold ParticlePool.acquire
    rw [hfi]

/-- Witness for C6 (amended): a two-slot object pool whose second slot is
free hands out exactly that slot. -/
theorem pool_acquire_never_exhausted_witness :
    (ObjectPool.acquire (fun _ => ({ id := 2, payload := 99 } : PoolItem Nat))
        { pool := [{ id := 0, payload := 10 }, { id := 1, payload := 20 }],
          active := [true, false] }).2
      = some { id := 1, payload := 20 } := by
  have h := (pool_acquire_never_exhausted
      (fun _ => ({ id := 2, payload := 99 } : PoolItem Nat))
      { pool := [{ id := 0, payload := 10 }, { id := 1, payload := 20 }],
        active := [true, false] } rfl).2.1 1 (by decide) (by decide) (by decide)
  rw [h.2.2]
  rfl

lemma indexOfId_none {α : Type} (objId : Nat) (l : List (PoolItem α)) (k : Nat)
    (h : ∀ t ∈ l, t.id ≠ objId) : indexOfId objId l k = none := by
  induction l generalizing k with
  | nil => rfl
  | cons t rest ih =>
    have ht : (t.id == objId) = false :=
      beq_eq_false_iff_ne.mpr (h t (List.mem_cons_self t rest))
    simp only [indexOfId, ht, if_false]
    exact ih (k + 1) (fun x hx => h x (List.mem_cons_of_mem t hx))

lemma indexOfId_set_same_id {α : Type} (objId : Nat) :
    ∀ (l : List (PoolItem α)) (i k : Nat) (x : PoolItem α),
    (∀ t, l.get? i = some t → x.id = t.id) →
    indexOfId objId (l.set i x) k = indexOfId objId l k
  | [], _, _, _, _ => rfl
  | t :: rest, 0, k, x, h => by
      have hid : x.id = t.id := h t rfl
      simp only [List.set_cons_zero, indexOfId, hid]
  | t :: rest, i + 1, k, x, h => by
      have hrec := indexOfId_set_same_id objId rest i (k + 1) x (fun u hu => h u hu)
      simp only [List.set_cons_succ, indexOfId, hrec]

lemma getD_set_self {α : Type} : ∀ (l : List α) (i : Nat) (x d : α),
    i < l.length → (l.set i x).getD i d = x
  | [], i, _, _, hi => absurd hi (by simp)
  | _ :: _, 0, _, _, _ => rfl
  | _ :: rest, i + 1, x, d, hi =>
      getD_set_self rest i x d (by simpa using Nat.lt_of_succ_lt_succ hi)

lemma getD_true_lt : ∀ (l : List Bool) (i : Nat), l.getD i false = true → i < l.length
  | [], i, h => absurd h (by simp)
  | _ :: _, 0, _ => Nat.succ_pos _
  | _ :: rest, i + 1, h =>
      Nat.succ_lt_succ (getD_true_lt rest i (by simpa using h))

/-- C7: `ObjectPool.release` is idempotent — releasing the same item twice
in a row produces exactly the state (hence the active count and every
slot's active flag) of a single release — and defensive: releasing an
identity not present in the pool changes nothing. -/
theorem pool_release_idempotent_defensive {α : Type}
    (reset : α → α) (s : ObjectPool α) (objId : Nat) :
    ObjectPool.release reset (ObjectPool.release reset s objId) objId
        = ObjectPool.release reset s objId
    ∧ ObjectPool.getActiveCount
          (ObjectPool.release reset (ObjectPool.release reset s objId) objId)
        = ObjectPool.getActiveCount (ObjectPool.release reset s objId)
    ∧ ((∀ t ∈ s.pool, t.id ≠ objId) → ObjectPool.release reset s objId = s) := by
  have hidem : ObjectPool.release reset (ObjectPool.release reset s objId) objId
      = ObjectPool.release reset s objId := by
    rcases h1 : indexOfId objId s.pool 0 with _ | idx
    · have hr : ObjectPool.release reset s objId = s := by
        unfold ObjectPool.release
        simp only [h1]
      rw [hr, hr]
    · by_cases hact : s.active.getD idx false = true
      · rcases hget : s.pool.get? idx with _ | t
        · have hr : ObjectPool.release reset s objId = s := by
            unfold ObjectPool.release
            simp only [h1, hact, hget, if_true]
          rw [hr, hr]
        · have hr : ObjectPool.release reset s objId
              = { pool := s.pool.set idx { t with payload := reset t.payload },
                  active := s.active.set idx false } := by
            unfold ObjectPool.release
            simp only [h1, hact, hget, if_true]
          rw [hr]
          have hidx2 : indexOfId objId
              (s.pool.set idx { t with payload := reset t.payload }) 0
              = some idx := by
            rw [indexOfId_set_same_id objId s.pool idx 0 _
              (fun u hu => by rw [hget] at hu; cases hu; rfl), h1]
          have hlt : idx < s.active.length := getD_true_lt s.active idx hact
          have hfalse : (s.active.set idx false).getD idx false = false :=
            getD_set_self s.active idx false false hlt
          have hfalse2 : (s.active.set idx false)[idx]?.getD false = false := by
            rw [← List.getD_eq_getElem?_getD]
            exact hfalse
          simp [ObjectPool.release, hidx2, hfalse2]
      · have hactf : s.active.getD idx false = false := by
          simpa using hact
        have hactf2 : s.active[idx]?.getD false = false := by
          rw [← List.getD_eq_getElem?_getD]
          exact hactf
        have hr : ObjectPool.release reset s objId = s := by
          unfold ObjectPool.release
          simp [h1, hactf2]
        rw [hr, hr]
  refine ⟨hidem, congrArg ObjectPool.getActiveCount hidem, ?_⟩
  intro hnone
  unfold ObjectPool.release
  rw [indexOfId_none objId s.pool 0 hnone]

/-- Witness for C7: double release of item 0 equals a single release, and
releasing the unknown identity 7 is a no-op. -/
theorem pool_release_idempotent_defensive_witness :
    ObjectPool.release (fun _ => (0 : Nat))
        (ObjectPool.release (fun _ => (0 : Nat))
          { pool := [{ id := 0, payload := 5 }], active := [true] } 0) 0
      = ObjectPool.release (fun _ => (0 : Nat))
          { pool := [{ id := 0, payload := 5 }], active := [true] } 0
    ∧ ObjectPool.release (fun _ => (0 : Nat))
          { pool := [{ id := 0, payload := 5 }], active := [true] } 7
      = { pool := [{ id := 0, payload := 5 }], active := [true] } :=
  ⟨(pool_release_idempotent_defensive (fun _ => (0 : Nat))
      { pool := [{ id := 0, payload := 5 }], active := [true] } 0).1,
    (pool_release_idempotent_defensive (fun _ => (0 : Nat))
      { pool := [{ id := 0, payload := 5 }], active := [true] } 7).2.2 (by decide)⟩

/-! ## Sun attack economy (gameStore registerSunAttack / updateSunCooldown) -/

/-- The Sun-economy slice of the game store: both factions' Sun-attack
cooldowns, the shared overcharge, and both factions' last-attack
timestamps (0 meaning "never attacked", as in the store's initial state). -/
structure GameStoreSun : Type where
  sunAttackCooldown : ℚ
  sunAIAttackCooldown : ℚ
  sunOvercharge : ℚ
  lastSunAttackTime : ℚ
  lastSunAIAttackTime : ℚ
deriving DecidableEq, Repr

/-- Translation of `gameStore.registerSunAttack(owner)` called at time
`now` (`Date.now()`, milliseconds): compute the seconds since that
faction's previous Sun attack (`Infinity`, modelled `none`, when the
stored timestamp is not positive); when below 5 seconds add
`SUN_OVERCHARGE_MULTIPLIER` to the shared overcharge; reset that faction's
cooldown to `SUN_ATTACK_COOLDOWN` and record the attack time. -/
def registerSunAttack (s : GameStoreSun) (owner : Owner) (now : ℚ) : GameStoreSun :=
  let timeSinceLastAttack : Option ℚ :=
    if owner = Owner.player ∧ 0 < s.lastSunAttackTime then
      some ((now - s.lastSunAttackTime) / 1000)
    else if owner = Owner.ai ∧ 0 < s.lastSunAIAttackTime then
      some ((now - s.lastSunAIAttackTime) / 1000)
    else none
  let newOvercharge : ℚ :=
    match timeSinceLastAttack with
    | some t =>
        if t < 5 then s.sunOvercharge + SUN_OVERCHARGE_MULTIPLIER else s.sunOvercharge
    | none => s.sunOvercharge
  if owner = Owner.player then
    { s with sunAttackCooldown := SUN_ATTACK_COOLDOWN,
             sunOvercharge := newOvercharge,
             lastSunAttackTime := now }
  else
    { s with sunAIAttackCooldown := SUN_ATTACK_COOLDOWN,
             sunOvercharge := newOvercharge,
             lastSunAIAttackTime := now }

/-- Translation of `gameStore.updateSunCooldown(delta)` (`delta` in frames,
60 frames per second): clamp both cooldowns at 0 after decrementing and
decay the overcharge by `SUN_OVERCHARGE_DECAY` per second, floored at 0. -/
def updateSunCooldown (s : GameStoreSun) (delta : ℚ) : GameStoreSun :=
  { s with
    sunAttackCooldown := max 0 (s.sunAttackCooldown - delta),
    sunAIAttackCooldown := max 0 (s.sunAIAttackCooldown - delta),
    sunOvercharge := max 0 (s.sunOvercharge - SUN_OVERCHARGE_DECAY * (delta / 60)) }

lemma registerSunAttack_player_eq (s : GameStoreSun) (now : ℚ) :
    registerSunAttack s Owner.player now =
      { s with
        sunAttackCooldown := SUN_ATTACK_COOLDOWN,
        sunOvercharge :=
          if 0 < s.lastSunAttackTime ∧ (now - s.lastSunAttackTime) / 1000 < 5 then
            s.sunOvercharge + SUN_OVERCHARGE_MULTIPLIER
          else s.sunOvercharge,
        lastSunAttackTime := now } := by
  unfold registerSunAttack
  by_cases hlast : 0 < s.lastSunAttackTime
  · simp [hlast]
  · simp [hlast]

lemma registerSunAttack_ai_eq (s : GameStoreSun) (now : ℚ) :
    registerSunAttack s Owner.ai now =
      { s with
        sunAIAttackCooldown := SUN_ATTACK_COOLDOWN,
        sunOvercharge :=
          if 0 < s.lastSunAIAttackTime ∧ (now - s.lastSunAIAttackTime) / 1000 < 5 then
            s.sunOvercharge + SUN_OVERCHARGE_MULTIPLIER
          else s.sunOvercharge,
        lastSunAIAttackTime := now } := by
  unfold registerSunAttack
  by_cases hlast : 0 < s.lastSunAIAttackTime
  · simp [hlast]
  · simp [hlast]

/-- C8: `registerSunAttack(faction)` resets that faction's cooldown to
`SUN_ATTACK_COOLDOWN`, records the attack time, and increases the shared
overcharge by exactly `SUN_OVERCHARGE_MULTIPLIER` if and only if the time
since that same faction's previous Sun attack is below 5 seconds;
`updateSunCooldown` decays the overcharge at `SUN_OVERCHARGE_DECAY` per
second and keeps overcharge and both cooldowns at 0 or above. -/
theorem register_sun_attack_cooldown_overcharge (s : GameStoreSun) (now : ℚ) :
    ((registerSunAttack s Owner.player now).sunAttackCooldown = SUN_ATTACK_COOLDOWN
      ∧ (registerSunAttack s Owner.player now).lastSunAttackTime = now
      ∧ ((registerSunAttack s Owner.player now).sunOvercharge
            = s.sunOvercharge + SUN_OVERCHARGE_MULTIPLIER
          ↔ 0 < s.lastSunAttackTime ∧ (now - s.lastSunAttackTime) / 1000 < 5)
      ∧ (¬(0 < s.lastSunAttackTime ∧ (now - s.lastSunAttackTime) / 1000 < 5) →
          (registerSunAttack s Owner.player now).sunOvercharge = s.sunOvercharge))
    ∧ ((registerSunAttack s Owner.ai now).sunAIAttackCooldown = SUN_ATTACK_COOLDOWN
      ∧ (registerSunAttack s Owner.ai now).lastSunAIAttackTime = now
      ∧ ((registerSunAttack s Owner.ai now).sunOvercharge
            = s.sunOvercharge + SUN_OVERCHARGE_MULTIPLIER
          ↔ 0 < s.lastSunAIAttackTime ∧ (now - s.lastSunAIAttackTime) / 1000 < 5)
      ∧ (¬(0 < s.lastSunAIAttackTime ∧ (now - s.lastSunAIAttackTime) / 1000 < 5) →
          (registerSunAttack s Owner.ai now).sunOvercharge = s.sunOvercharge))
    ∧ (∀ delta : ℚ,
        (updateSunCooldown s delta).sunOvercharge
            = max 0 (s.sunOvercharge - SUN_OVERCHARGE_DECAY * (delta / 60))
        ∧ 0 ≤ (updateSunCooldown s delta).sunOvercharge
        ∧ 0 ≤ (updateSunCooldown s delta).sunAttackCooldown
        ∧ 0 ≤ (updateSunCooldown s delta).sunAIAttackCooldown) := by
  refine ⟨?_, ?_, ?_⟩
  · rw [registerSunAttack_player_eq]
    refine ⟨rfl, rfl, ?_, ?_⟩
    · by_cases hc : 0 < s.lastSunAttackTime ∧ (now - s.lastSunAttackTime) / 1000 < 5
      · simp [hc]
      · simp only [hc, if_false, iff_false]
        intro habs
        rw [self_eq_add_right, SUN_OVERCHARGE_MULTIPLIER] at habs
        norm_num at habs
    · intro hc
      simp [hc]
  · rw [registerSunAttack_ai_eq]
    refine ⟨rfl, rfl, ?_, ?_⟩
    · by_cases hc : 0 < s.lastSunAIAttackTime ∧ (now - s.lastSunAIAttackTime) / 1000 < 5
      · simp [hc]
      · simp only [hc, if_false, iff_false]
        intro habs
        rw [self_eq_add_right, SUN_OVERCHARGE_MULTIPLIER] at habs
        norm_num at habs
    · intro hc
      simp [hc]
  · intro delta
    exact ⟨rfl, le_max_left 0 _, le_max_left 0 _, le_max_left 0 _⟩

/-- Witness for C8: a player attack at time 2000 ms, 1 second after the
previous one at 1000 ms, raises the overcharge by exactly
`SUN_OVERCHARGE_MULTIPLIER` and resets the player cooldown. -/
theorem register_sun_attack_cooldown_overcharge_witness :
    (registerSunAttack
        { sunAttackCooldown := 0, sunAIAttackCooldown := 0, sunOvercharge := 0,
          lastSunAttackTime := 1000, lastSunAIAttackTime := 0 }
        Owner.player 2000).sunOvercharge = 0 + SUN_OVERCHARGE_MULTIPLIER
    ∧ (registerSunAttack
        { sunAttackCooldown := 0, sunAIAttackCooldown := 0, sunOvercharge := 0,
          lastSunAttackTime := 1000, lastSunAIAttackTime := 0 }
        Owner.player 2000).sunAttackCooldown = SUN_ATTACK_COOLDOWN :=
  ⟨((register_sun_attack_cooldown_overcharge
        { sunAttackCooldown := 0, sunAIAttackCooldown := 0, sunOvercharge := 0,
          lastSunAttackTime := 1000, lastSunAIAttackTime := 0 }
        2000).1.2.2.1).mpr (by norm_num),
    (register_sun_attack_cooldown_overcharge
        { sunAttackCooldown := 0, sunAIAttackCooldown := 0, sunOvercharge := 0,
          lastSunAttackTime := 1000, lastSunAIAttackTime := 0 }
        2000).1.1⟩

/-! ## Win condition (GameManager.checkWinCondition) and game modes -/

/-- Game mode tag (`'classic' | 'quick' | 'timeattack'`). -/
inductive GameMode : Type
  | classic
  | quick
  | timeattack
deriving DecidableEq, Repr

/-- A mode's configuration record from `GAME_MODES`. -/
structure ModeConfig : Type where
  duration : Nat
  majorityThreshold : Nat
deriving DecidableEq, Repr

/-- `GAME_MODES.CLASSIC`. -/
def GAME_MODES_CLASSIC : ModeConfig := { duration := 120, majorityThreshold := 5 }

/-- `GAME_MODES.QUICK`. -/
def GAME_MODES_QUICK : ModeConfig := { duration := 60, majorityThreshold := 4 }

/-- `GAME_MODES.TIME_ATTACK`. -/
def GAME_MODES_TIME_ATTACK : ModeConfig := { duration := 60, majorityThreshold := 4 }

/-- Translation of `getMajorityThreshold(mode)`:
`mode === 'quick' ? GAME_MODES.QUICK.majorityThreshold : GAME_MODES.CLASSIC.majorityThreshold`. -/
def getMajorityThreshold (mode : GameMode) : Nat :=
  if mode = GameMode.quick then GAME_MODES_QUICK.majorityThreshold
  else GAME_MODES_CLASSIC.majorityThreshold

/-- Outcome of `GameManager.checkWinCondition` for one call. -/
inductive GameOutcome : Type
  | victory
  | defeatAiWon
  | defeatTimer
  | ongoing
deriving DecidableEq, Repr

/-- Translation of `GameManager.checkWinCondition` (assuming the game was
not already over): player victory on a player-captured Sun; defeat on an
AI-captured Sun; at `timer <= 0`, victory exactly when the player owns
strictly more planets than the AI, defeat otherwise; else the game
continues. -/
def GameManager.checkWinCondition (sunOwner : Option Owner) (timer : Int)
    (planetOwners : List Owner) : GameOutcome :=
  if sunOwner = some Owner.player then GameOutcome.victory
  else if sunOwner = some Owner.ai then GameOutcome.defeatAiWon
  else if timer ≤ 0 then
    let playerPlanets := planetOwners.countP (fun o => o == Owner.player)
    let aiPlanets := planetOwners.countP (fun o => o == Owner.ai)
    if aiPlanets < playerPlanets then GameOutcome.victory else GameOutcome.defeatTimer
  else GameOutcome.ongoing

/-- C9: when the timer reaches 0 with the Sun uncaptured, the check
declares a player victory exactly when the player's owned-planet count
strictly exceeds the AI's; an equal count is reported as a (timer)
defeat. -/
theorem timer_expiry_tiebreak (timer : Int) (planetOwners : List Owner)
    (htimer : timer ≤ 0) :
    (GameManager.checkWinCondition none timer planetOwners = GameOutcome.victory
      ↔ planetOwners.countP (fun o => o == Owner.ai)
          < planetOwners.countP (fun o => o == Owner.player))
    ∧ (planetOwners.countP (fun o => o == Owner.player)
          = planetOwners.countP (fun o => o == Owner.ai) →
        GameManager.checkWinCondition none timer planetOwners = GameOutcome.defeatTimer) := by
  unfold GameManager.checkWinCondition
  simp only [reduceCtorEq, Option.some.injEq, if_false, htimer, if_true]
  constructor
  · by_cases hc : planetOwners.countP (fun o => o == Owner.ai)
        < planetOwners.countP (fun o => o == Owner.player)
    · simp [hc]
    · simp [hc]
  · intro heq
    rw [if_neg (by omega)]

/-- Witness for C9: with the timer at 0 and planet owners player, ai, ai,
the player loses on count 1 vs 2; with owners player, ai the counts tie
and the result is a timer defeat. -/
theorem timer_expiry_tiebreak_witness :
    (GameManager.checkWinCondition none 0 [Owner.player, Owner.ai, Owner.ai]
        = GameOutcome.victory
      ↔ (2 : Nat) < 1)
    ∧ GameManager.checkWinCondition none 0 [Owner.player, Owner.ai]
        = GameOutcome.defeatTimer := by
  constructor
  · have h := (timer_expiry_tiebreak 0 [Owner.player, Owner.ai, Owner.ai] (by norm_num)).1
    simpa using h
  · exact (timer_expiry_tiebreak 0 [Owner.player, Owner.ai] (by norm_num)).2 (by decide)

/-- C10: the majority threshold actually used by every caller (both
`InputManager` and `AISystem` call `getMajorityThreshold(state.gameMode)`)
is 5 for classic and timeattack and 4 only for quick; in particular the
threshold 4 declared in the TIME_ATTACK mode configuration is never
returned for the timeattack mode. -/
theorem majority_threshold_resolution :
    getMajorityThreshold GameMode.classic = 5
    ∧ getMajorityThreshold GameMode.timeattack = 5
    ∧ getMajorityThreshold GameMode.quick = 4
    ∧ GAME_MODES_TIME_ATTACK.majorityThreshold = 4
    ∧ getMajorityThreshold GameMode.timeattack ≠ GAME_MODES_TIME_ATTACK.majorityThreshold := by
  refine ⟨rfl, rfl, rfl, rfl, ?_⟩
  decide

/-! ## Per-tick projectile lifecycle (main ticker, AISystem.update,
CombatSystem.update, cleanupReachedTriangles)

The lifecycle tracked here is the one claim C3 is about: each projectile's
`hasReached` and pool `active` flags, its membership in the faction's live
list, and its pool slot.  `Triangle.update` marks a projectile reached
when the squared distance to its target drops below the squared arrival
threshold (`5 * 5 = 25`); the in-flight displacement applied in the
non-arrival branch is kinematic and is abstracted as a `move` parameter
(the statements hold for every displacement, and the failing input never
takes that branch).  Combat resolution's effects on planets and the Sun
are `Sun.takeDamage` and `CombatSystem.resolveAttackHit` above; here only
the release/splice discipline is modelled.  A projectile's pool slot is
its index in the pool's `active` array. -/

/-- Lifecycle state of one pooled projectile: its pool-slot index, the
squared distance to its stored target, and its `hasReached` and pool
`active` flags. -/
structure TriState : Type where
  slot : Nat
  distSq : ℚ
  hasReached : Bool
  active : Bool
deriving DecidableEq, Repr

/-- `TRIANGLE_ARRIVAL_THRESHOLD` squared (`arrivalThresholdSquared = 25`). -/
def ARRIVAL_THRESHOLD_SQUARED : ℚ := 25

/-- Translation of `Triangle.update(delta)`: return unchanged when already
reached or inactive; mark `hasReached` when within the arrival threshold;
otherwise advance along the flight path by the displacement `move`. -/
def Triangle.updateStep (move : TriState → TriState) (t : TriState) : TriState :=
  if t.hasReached ∨ t.active = false then t
  else if t.distSq < ARRIVAL_THRESHOLD_SQUARED then { t with hasReached := true }
  else move t

/-- The triangle loop of `AISystem.update`: update every AI triangle, then
splice out those with `hasReached` — without releasing them to the pool.
(The preceding `makeDecision` call only pushes fresh unreached triangles
and is independent of this claim.) -/
def AISystem.updateTriangles (move : TriState → TriState) (l : List TriState) :
    List TriState :=
  (l.map (Triangle.updateStep move)).filter (fun t => !t.hasReached)

/-- The main ticker's `updateTriangles` helper: triangles already flagged
`hasReached` are skipped (left for CombatSystem), the rest are updated;
nothing is spliced (pooled triangles are never destroyed). -/
def mainUpdateTriangles (move : TriState → TriState) (l : List TriState) :
    List TriState :=
  l.map (fun t => if t.hasReached then t else Triangle.updateStep move t)

/-- Effect of `ObjectPool.release(triangle)` on the pool's `active` array
for one projectile's slot: the slot, when present and active, becomes
inactive; otherwise nothing changes. -/
def releaseSlot (flags : List Bool) (slot : Nat) : List Bool :=
  flags.set slot false

/-- Lifecycle effect of `CombatSystem.update` on one faction's list: every
triangle flagged `hasReached` is resolved (`resolveSunAttack` or
`resolveAttack`, modelled above), released back to the pool, and spliced
from the list. -/
def CombatSystem.updateList (l : List TriState) (flags : List Bool) :
    List TriState × List Bool :=
  (l.filter (fun t => !t.hasReached),
    (l.filter (fun t => t.hasReached)).foldl (fun fs t => releaseSlot fs t.slot) flags)

/-- Lifecycle effect of `cleanupReachedTriangles`: any remaining triangle
flagged `hasReached` is released to the pool and spliced. -/
def cleanupReachedTriangles (l : List TriState) (flags : List Bool) :
    List TriState × List Bool :=
  (l.filter (fun t => !t.hasReached),
    (l.filter (fun t => t.hasReached)).foldl (fun fs t => releaseSlot fs t.slot) flags)

/-- One tick of the main loop for the AI projectile list, in the ticker's
order: `aiSystem.update` (which splices reached AI triangles without
releasing them), then `updateTriangles`, then `combatSystem.update`, then
`cleanupReachedTriangles`. -/
def aiListTick (move : TriState → TriState) (l : List TriState) (flags : List Bool) :
    List TriState × List Bool :=
  let l1 := AISystem.updateTriangles move l
  let l2 := mainUpdateTriangles move l1
  let r3 := CombatSystem.updateList l2 flags
  cleanupReachedTriangles r3.1 r3.2

/-- C3 fails on the AI list: an active AI projectile 4 pixels from its
target (squared distance 16 < 25) becomes reached during `AISystem.update`
and the tick ends with it spliced from the live list but its pool slot
still active — it is never released back to the pool, because
`AISystem.update` removed it from the list before `CombatSystem.update`
and `cleanupReachedTriangles` could see it.  (The identity displacement
suffices: this run never takes the in-flight branch.) -/
theorem ai_reached_triangle_leaks_pool_slot :
    aiListTick (fun t => t)
        [{ slot := 0, distSq := 16, hasReached := false, active := true }] [true]
      = ([], [true]) := by decide
